import Mathlib

/-!
Verification of the `mylang` → x86-64 compiler (Rust sources under `src/`).

The development shallowly embeds the compiler's data model and code
generators in Lean:

* `Register`, `Operand`, `Statement` mirror `src/a86/ast.rs`.
* `Value`, `UnaryType` and the tag constants mirror `src/mylang/data_type.rs`.
* The code-generator functions (`compile_less_than`, `assert_codepoint`,
  `compile_vector_set`, `compile_literal_pattern`, `move_args`, …) are
  translated statement-for-statement from the Rust sources they are named
  after; each definition's doc comment cites its source file.
* `runStmts` gives an executable small-step semantics for the emitted
  pseudo-instruction fragments, matching NASM/x86-64 semantics for exactly
  the instruction forms the compiler emits (the printer in
  `src/a86/printer.rs` is a transparent one-to-one mapping to Intel-syntax
  NASM text, so statement-level semantics and assembly semantics agree).
  All fragments examined by the theorems are loop-free; jumps to labels that
  are not defined later in a fragment (for example the shared error label
  `err`) surface as a `jumped` outcome.
-/

/-! ### a86 AST (src/a86/ast.rs) -/

/-- Registers, from `src/a86/ast.rs`.  `EAX` and `R9D` are the 32-bit views
of `rax` and `r9`. -/
inductive Register where
  | RAX | EAX | RBX | RDI | RSP
  | R1 | R2 | R3 | R4 | R5 | R6 | R7
  | R8 | R9 | R10 | R11 | R12 | R13 | R14 | R15
  | R9D
deriving DecidableEq, Repr

/-- Operands, from `src/a86/ast.rs` (`Immediate(i64)`, `Register`,
`Offset(Register, i64)`). -/
inductive Operand where
  | Immediate (v : Int)
  | Reg (r : Register)
  | Offset (r : Register) (off : Int)
deriving DecidableEq, Repr

/-- Pseudo-instructions, from `src/a86/ast.rs`.  The printer prints each of
these as the NASM instruction of the same name with the operands in the
same order (`dest, src`). -/
inductive Statement where
  | Global (name : String)
  | Extern (name : String)
  | Label (name : String)
  | Data
  | Text
  | Dq (value : Int)
  | Dd (value : Int)
  | Mov (dest src : Operand)
  | And (dest src : Operand)
  | Or (dest src : Operand)
  | Xor (dest src : Operand)
  | Sar (dest src : Operand)
  | Sal (dest src : Operand)
  | Cmp (dest src : Operand)
  | Cmove (dest src : Operand)
  | Cmovl (dest src : Operand)
  | Jmp (label : String)
  | JmpRegister (r : Register)
  | Je (label : String)
  | Jne (label : String)
  | Jg (label : String)
  | Jl (label : String)
  | Push (src : Operand)
  | Pop (dest : Operand)
  | Add (dest src : Operand)
  | Sub (dest src : Operand)
  | Lea (dest : Operand) (label : String)
  | LeaArithmetic (dest : Operand) (expr : String)
  | Call (label : String)
  | Ret
deriving DecidableEq, Repr

/-! ### Value encoding (src/mylang/data_type.rs) -/

/-- `TypeTag(pub u64)` from `src/mylang/data_type.rs`. -/
structure TypeTag where
  val : Nat
deriving DecidableEq, Repr

/-- `UnaryType { shift, tag }` from `src/mylang/data_type.rs`. -/
structure UnaryType where
  shift : Nat
  tag : TypeTag
deriving DecidableEq, Repr

/-- `UnaryType::encode`: `(value << self.shift) + self.tag`. -/
def UnaryType.encode (t : UnaryType) (value : Int) : Int :=
  value * 2 ^ t.shift + (t.tag.val : Int)

/-- `UnaryType::mask`: `(1 << self.shift) - 1`. -/
def UnaryType.mask (t : UnaryType) : Nat :=
  2 ^ t.shift - 1

def IMMEDIATE_SHIFT : Nat := 3

def BOX_TYPE : UnaryType := { shift := IMMEDIATE_SHIFT, tag := ⟨0b001⟩ }
def CONS_TYPE : UnaryType := { shift := IMMEDIATE_SHIFT, tag := ⟨0b010⟩ }
def VECTOR_TYPE : UnaryType := { shift := IMMEDIATE_SHIFT, tag := ⟨0b011⟩ }
def STRING_TYPE : UnaryType := { shift := IMMEDIATE_SHIFT, tag := ⟨0b100⟩ }
def CLOSURE_TYPE : UnaryType := { shift := IMMEDIATE_SHIFT, tag := ⟨0b101⟩ }
def INT_TYPE : UnaryType := { shift := 1 + IMMEDIATE_SHIFT, tag := ⟨0b0 <<< IMMEDIATE_SHIFT⟩ }
def CHAR_TYPE : UnaryType := { shift := 2 + IMMEDIATE_SHIFT, tag := ⟨0b01 <<< IMMEDIATE_SHIFT⟩ }
def TRUE_TYPE : TypeTag := ⟨0b11 <<< IMMEDIATE_SHIFT⟩
def FALSE_TYPE : TypeTag := ⟨0b111 <<< IMMEDIATE_SHIFT⟩
def EOF_TYPE : TypeTag := ⟨0b1011 <<< IMMEDIATE_SHIFT⟩
def VOID_TYPE : TypeTag := ⟨0b1111 <<< IMMEDIATE_SHIFT⟩
def EMPTY_TYPE : TypeTag := ⟨0b10011 <<< IMMEDIATE_SHIFT⟩

/-- Rust `i64`, modelled as a mathematical integer (wrap-around is applied
explicitly where the machine semantics requires it). -/
abbrev I64 := Int

/-- Runtime values, from `src/mylang/data_type.rs`.  Rust `char` is modelled
by its Unicode scalar value. -/
inductive Value where
  | Int (i : I64)
  | Byte (b : Nat)
  | Boolean (b : Bool)
  | Char (c : Nat)
  | Eof
  | Void
  | EmptyList
  | EmptyVector
  | EmptyString
  | Cons (a : I64)
  | Box (a : I64)
  | Vector (a : I64)
  | String (a : I64)
deriving DecidableEq, Repr

/-- `Value::encode` from `src/mylang/data_type.rs`. -/
def Value.encode : Value → I64
  | .Int i => INT_TYPE.encode i
  | .Byte b => INT_TYPE.encode b
  | .Char c => CHAR_TYPE.encode c
  | .Box a => BOX_TYPE.encode a
  | .Cons a => CONS_TYPE.encode a
  | .Vector a => VECTOR_TYPE.encode a
  | .String a => STRING_TYPE.encode a
  | .Boolean true => TRUE_TYPE.val
  | .Boolean false => FALSE_TYPE.val
  | .Eof => EOF_TYPE.val
  | .Void => VOID_TYPE.val
  | .EmptyList => EMPTY_TYPE.val
  | .EmptyVector => VECTOR_TYPE.tag.val
  | .EmptyString => STRING_TYPE.tag.val

/-- `impl From<Value> for Operand` (`Operand::Immediate(value.encode())`). -/
def Operand.fromValue (v : Value) : Operand :=
  .Immediate v.encode

/-! ### Machine semantics for emitted fragments

x86-64 two's-complement machine arithmetic over `Int`. All register and
64-bit memory contents are kept in the signed range `[-2^63, 2^63)`;
`cmp` therefore agrees with mathematical comparison of the stored values,
exactly as the signed `jl`/`jg`/`cmovl` condition codes do on hardware. -/

/-- Signed 64-bit wrap-around. -/
def wrap64 (x : Int) : Int :=
  (x + 2 ^ 63) % 2 ^ 64 - 2 ^ 63

/-- Unsigned 64-bit view of a machine word. -/
def toU64 (x : Int) : Nat :=
  (x % 2 ^ 64).toNat

/-- Signed view of an unsigned 64-bit quantity. -/
def ofU64 (n : Nat) : Int :=
  if n < 2 ^ 63 then (n : Int) else (n : Int) - 2 ^ 64

def bitAnd64 (x y : Int) : Int := ofU64 (toU64 x &&& toU64 y)
def bitOr64 (x y : Int) : Int := ofU64 (toU64 x ||| toU64 y)
def bitXor64 (x y : Int) : Int := ofU64 (toU64 x ^^^ toU64 y)

/-- Arithmetic shift right (`sar`): floor division by a power of two. -/
def sar64 (x : Int) (n : Nat) : Int := x / 2 ^ n

/-- Shift left (`sal`): multiplication with 64-bit wrap-around. -/
def sal64 (x : Int) (n : Nat) : Int := wrap64 (x * 2 ^ n)

/-- Machine state.  Only the registers the compiler's emitted code uses are
modelled individually; `flags` holds the outcome of the last `cmp` (in all
code emitted by this compiler, every conditional jump or conditional move is
separated from its `cmp` only by `mov`s, which do not affect flags on x86).
`mem` maps 8-aligned byte addresses to 64-bit words, most recent store
first.  `labelAddr` gives the link-time address of each label (used only by
`lea`). -/
structure MachineState where
  rax : Int := 0
  rbx : Int := 0
  rdi : Int := 0
  rsp : Int := 0
  r8 : Int := 0
  r9 : Int := 0
  r10 : Int := 0
  r15 : Int := 0
  flags : Ordering := .eq
  mem : List (Int × Int) := []
  labelAddr : List (String × Int) := []
deriving DecidableEq, Repr

def load64 (m : List (Int × Int)) (a : Int) : Int :=
  ((m.lookup a).getD 0)

def store64 (m : List (Int × Int)) (a v : Int) : List (Int × Int) :=
  (a, v) :: m

/-- 32-bit load at a 4-aligned address, as the low or high half of the
enclosing 64-bit word (little-endian). -/
def load32 (m : List (Int × Int)) (a : Int) : Int :=
  let b := 8 * (a / 8)
  let u := toU64 (load64 m b)
  if a % 8 = 0 then (u % 2 ^ 32 : Nat) else (u / 2 ^ 32 : Nat)

/-- 32-bit store at a 4-aligned address (read-modify-write of the enclosing
64-bit word). -/
def store32 (m : List (Int × Int)) (a v : Int) : List (Int × Int) :=
  let b := 8 * (a / 8)
  let u := toU64 (load64 m b)
  let vn := (v % 2 ^ 32).toNat
  let w := if a % 8 = 0 then u / 2 ^ 32 * 2 ^ 32 + vn else u % 2 ^ 32 + vn * 2 ^ 32
  store64 m b (ofU64 w)

def signed32 (n : Int) : Int :=
  let u := n % 2 ^ 32
  if u < 2 ^ 31 then u else u - 2 ^ 32

def MachineState.readReg (s : MachineState) : Register → Int
  | .RAX => s.rax
  | .EAX => s.rax % 2 ^ 32
  | .RBX => s.rbx
  | .RDI => s.rdi
  | .RSP => s.rsp
  | .R8 => s.r8
  | .R9 => s.r9
  | .R9D => s.r9 % 2 ^ 32
  | .R10 => s.r10
  | .R15 => s.r15
  | _ => 0

/-- Write a 64-bit register; a write to `EAX`/`R9D` zero-extends into the
full register, as on x86-64. -/
def MachineState.writeReg (s : MachineState) (r : Register) (v : Int) : MachineState :=
  match r with
  | .RAX => { s with rax := wrap64 v }
  | .EAX => { s with rax := v % 2 ^ 32 }
  | .RBX => { s with rbx := wrap64 v }
  | .RDI => { s with rdi := wrap64 v }
  | .RSP => { s with rsp := wrap64 v }
  | .R8 => { s with r8 := wrap64 v }
  | .R9 => { s with r9 := wrap64 v }
  | .R9D => { s with r9 := v % 2 ^ 32 }
  | .R10 => { s with r10 := wrap64 v }
  | .R15 => { s with r15 := wrap64 v }
  | _ => s

/-- 64-bit read of an operand. -/
def MachineState.evalSrc (s : MachineState) : Operand → Int
  | .Immediate v => v
  | .Reg r => s.readReg r
  | .Offset r off => load64 s.mem (s.readReg r + off)

/-- 64-bit write to an operand destination. -/
def MachineState.writeDest (s : MachineState) (o : Operand) (v : Int) : MachineState :=
  match o with
  | .Reg r => s.writeReg r v
  | .Offset r off => { s with mem := store64 s.mem (s.readReg r + off) (wrap64 v) }
  | .Immediate _ => s

/-- An operand that makes an instruction operate at 32-bit width. -/
def Operand.is32 : Operand → Bool
  | .Reg .EAX => true
  | .Reg .R9D => true
  | _ => false

/-- 32-bit read of an operand. -/
def MachineState.evalSrc32 (s : MachineState) : Operand → Int
  | .Immediate v => v % 2 ^ 32
  | .Reg r => (s.readReg r) % 2 ^ 32
  | .Offset r off => load32 s.mem (s.readReg r + off)

/-- `mov`, 32-bit-aware: a 32-bit destination register zero-extends, a
32-bit memory store writes the 4-byte cell. -/
def MachineState.execMov (s : MachineState) (dest src : Operand) : MachineState :=
  if dest.is32 || src.is32 then
    let v := s.evalSrc32 src
    match dest with
    | .Offset r off => { s with mem := store32 s.mem (s.readReg r + off) v }
    | _ => s.writeDest dest v
  else
    s.writeDest dest (s.evalSrc src)

/-- `cmp`, 32-bit-aware; yields the signed ordering of dest versus src. -/
def MachineState.execCmp (s : MachineState) (dest src : Operand) : Ordering :=
  if dest.is32 || src.is32 then
    compare (signed32 (s.evalSrc32 dest)) (signed32 (s.evalSrc32 src))
  else
    compare (s.evalSrc dest) (s.evalSrc src)

/-- Outcome of running a fragment of emitted statements. -/
inductive Outcome where
  | ok (s : MachineState)
  | jumped (label : String) (s : MachineState)
  | jumpedInd (target : Int) (s : MachineState)
  | called (label : String) (s : MachineState)
  | retd (s : MachineState)
  | fuelOut
deriving DecidableEq, Repr

def hasLabel (l : String) : List Statement → Bool
  | [] => false
  | .Label n :: rest => n = l || hasLabel l rest
  | _ :: rest => hasLabel l rest

def dropToLabel (l : String) : List Statement → List Statement
  | [] => []
  | .Label n :: rest => if n = l then rest else dropToLabel l rest
  | _ :: rest => dropToLabel l rest

/-- Run a fragment.  Fuel bounds the number of executed statements; any fuel
at least the fragment length suffices for the loop-free fragments studied
here, because every jump moves strictly forward.  A jump to a label that the
remaining fragment does not define (such as the program-wide error label
`err`, or a match arm's `next_…` label) yields `Outcome.jumped`. -/
def runStmts : Nat → List Statement → MachineState → Outcome
  | _, [], s => .ok s
  | 0, _ :: _, _ => .fuelOut
  | fuel + 1, stmt :: rest, s =>
    match stmt with
    | .Global _ => runStmts fuel rest s
    | .Extern _ => runStmts fuel rest s
    | .Label _ => runStmts fuel rest s
    | .Data => runStmts fuel rest s
    | .Text => runStmts fuel rest s
    | .Dq _ => runStmts fuel rest s
    | .Dd _ => runStmts fuel rest s
    | .Mov d src => runStmts fuel rest (s.execMov d src)
    | .And d src => runStmts fuel rest (s.writeDest d (bitAnd64 (s.evalSrc d) (s.evalSrc src)))
    | .Or d src => runStmts fuel rest (s.writeDest d (bitOr64 (s.evalSrc d) (s.evalSrc src)))
    | .Xor d src => runStmts fuel rest (s.writeDest d (bitXor64 (s.evalSrc d) (s.evalSrc src)))
    | .Sar d src => runStmts fuel rest (s.writeDest d (sar64 (s.evalSrc d) (s.evalSrc src).toNat))
    | .Sal d src => runStmts fuel rest (s.writeDest d (sal64 (s.evalSrc d) (s.evalSrc src).toNat))
    | .Add d src => runStmts fuel rest (s.writeDest d (s.evalSrc d + s.evalSrc src))
    | .Sub d src => runStmts fuel rest (s.writeDest d (s.evalSrc d - s.evalSrc src))
    | .Cmp d src => runStmts fuel rest { s with flags := s.execCmp d src }
    | .Cmove d src =>
      runStmts fuel rest (if s.flags = .eq then s.writeDest d (s.evalSrc src) else s)
    | .Cmovl d src =>
      runStmts fuel rest (if s.flags = .lt then s.writeDest d (s.evalSrc src) else s)
    | .Jmp l =>
      if hasLabel l rest then runStmts fuel (dropToLabel l rest) s else .jumped l s
    | .JmpRegister r => .jumpedInd (s.readReg r) s
    | .Je l =>
      if s.flags = .eq then
        if hasLabel l rest then runStmts fuel (dropToLabel l rest) s else .jumped l s
      else runStmts fuel rest s
    | .Jne l =>
      if s.flags ≠ .eq then
        if hasLabel l rest then runStmts fuel (dropToLabel l rest) s else .jumped l s
      else runStmts fuel rest s
    | .Jg l =>
      if s.flags = .gt then
        if hasLabel l rest then runStmts fuel (dropToLabel l rest) s else .jumped l s
      else runStmts fuel rest s
    | .Jl l =>
      if s.flags = .lt then
        if hasLabel l rest then runStmts fuel (dropToLabel l rest) s else .jumped l s
      else runStmts fuel rest s
    | .Push src =>
      runStmts fuel rest
        { s with rsp := s.rsp - 8, mem := store64 s.mem (s.rsp - 8) (wrap64 (s.evalSrc src)) }
    | .Pop d =>
      runStmts fuel rest ({ s.writeDest d (load64 s.mem s.rsp) with rsp := s.rsp + 8 })
    | .Lea d l =>
      runStmts fuel rest (s.writeDest d (((s.labelAddr.lookup l).getD 0)))
    | .LeaArithmetic d e =>
      runStmts fuel rest (s.writeDest d (((s.labelAddr.lookup e).getD 0)))
    | .Call l => .called l s
    | .Ret => .retd s

/-! ### Compile-time variables table

The same `VariablesTable` code appears verbatim in `src/mylang/compiler.rs`,
`src/mylang/compiler/state.rs` and `src/mylang/compiler/variable.rs`;
it is embedded once.  `Vec::push` appends at the end of the list, so the
last element is the most recently pushed slot (nearest the stack pointer).
-/

abbrev Identifier := String

structure VariablesTable where
  vars : List (Option Identifier)
deriving DecidableEq, Repr

def VariablesTable.new : VariablesTable := ⟨[]⟩

/-- `push_variable` (compiler.rs / state.rs). -/
def VariablesTable.push_variable (t : VariablesTable) (v : Identifier) : VariablesTable :=
  ⟨t.vars ++ [some v]⟩

/-- `push_non_variable` (compiler.rs / state.rs). -/
def VariablesTable.push_non_variable (t : VariablesTable) : VariablesTable :=
  ⟨t.vars ++ [none]⟩

/-- `pop` (compiler.rs / state.rs). -/
def VariablesTable.pop (t : VariablesTable) : VariablesTable :=
  ⟨t.vars.dropLast⟩

/-- `position`: `self.variables.iter().position(|o| o.is_some_and(|v| v == variable)).map(|i| len - i - 1)`.
Rust's `Iterator::position` yields the index of the FIRST matching element,
scanning from index 0 — that is, from the bottom (oldest slot) of the
table. -/
def VariablesTable.position (t : VariablesTable) (v : Identifier) : Option Nat :=
  (t.vars.findIdx? (fun o => o = some v)).map (fun i => t.vars.length - i - 1)

/-- `with_var` (variable.rs). -/
def VariablesTable.with_var (t : VariablesTable) (v : Identifier) : VariablesTable :=
  ⟨t.vars ++ [some v]⟩

/-- `with_non_var` (variable.rs). -/
def VariablesTable.with_non_var (t : VariablesTable) : VariablesTable :=
  ⟨t.vars ++ [none]⟩

/-- `extended` (variable.rs). -/
def VariablesTable.extended (t : VariablesTable) (vs : List Identifier) : VariablesTable :=
  ⟨t.vars ++ vs.map some⟩

/-- `len` (variable.rs). -/
def VariablesTable.len (t : VariablesTable) : Nat :=
  t.vars.length

/-- Compiler state (`Compiler` in compiler.rs and compiler/state.rs). -/
structure Compiler where
  last_label_id : Nat
  variables_table : VariablesTable
deriving DecidableEq, Repr

def Compiler.new : Compiler := ⟨0, .new⟩

/-- `Compiler::new_label_id`: increments the counter and returns its decimal
string. -/
def Compiler.new_label_id (c : Compiler) : String × Compiler :=
  (toString (c.last_label_id + 1), { c with last_label_id := c.last_label_id + 1 })

/-! ### Register/operand shorthands used by the Rust sources -/

def RAX : Operand := .Reg .RAX
def EAX : Operand := .Reg .EAX
def RBX : Operand := .Reg .RBX
def RDI : Operand := .Reg .RDI
def RSP : Operand := .Reg .RSP
def R8 : Operand := .Reg .R8
def R9 : Operand := .Reg .R9
def R9D : Operand := .Reg .R9D
def R10 : Operand := .Reg .R10
def R15 : Operand := .Reg .R15

/-- The single runtime error label (`ERR_LABEL`, compiler.rs /
compiler/error.rs). -/
def ERR_LABEL : String := "err"

/-! ### Boolean materialisation (compiler/helper.rs; duplicated verbatim in
compiler.rs) -/

/-- `if_equal`: sets rax to the encoded true iff the comparison flag is
equal. -/
def if_equal : List Statement :=
  [ .Mov RAX (.Immediate (Value.Boolean false).encode),
    .Mov R9 (.Immediate (Value.Boolean true).encode),
    .Cmove RAX R9 ]

/-- `if_less_than`: sets rax to the encoded true iff the comparison flag is
less. -/
def if_less_than : List Statement :=
  [ .Mov RAX (.Immediate (Value.Boolean false).encode),
    .Mov R9 (.Immediate (Value.Boolean true).encode),
    .Cmovl RAX R9 ]

/-! ### Type checks (compiler/types.rs; duplicated verbatim in compiler.rs) -/

/-- `cast_type` (types.rs). -/
def cast_type (register : Register) (from_ to_ : UnaryType) : List Statement :=
  [ .Sar (.Reg register) (.Immediate from_.shift),
    .Sal (.Reg register) (.Immediate to_.shift),
    .Xor (.Reg register) (.Immediate to_.tag.val) ]

/-- `is_type` (types.rs). -/
def is_type (type_ : UnaryType) : List Statement :=
  [ .And RAX (.Immediate type_.mask),
    .Cmp RAX (.Immediate type_.tag.val) ] ++ if_equal

/-- `is_eof` (types.rs). -/
def is_eof : List Statement :=
  [ .Cmp RAX (.Immediate Value.Eof.encode) ] ++ if_equal

/-- `assert_type` (types.rs): `mov r9, R; and r9, mask; cmp r9, tag; jne err`. -/
def assert_type (register : Register) (type_ : UnaryType) : List Statement :=
  [ .Mov R9 (.Reg register),
    .And R9 (.Immediate type_.mask),
    .Cmp R9 (.Immediate type_.tag.val),
    .Jne ERR_LABEL ]

def assert_int (register : Register) : List Statement := assert_type register INT_TYPE
def assert_char (register : Register) : List Statement := assert_type register CHAR_TYPE
def assert_box (register : Register) : List Statement := assert_type register BOX_TYPE
def assert_cons (register : Register) : List Statement := assert_type register CONS_TYPE
def assert_vector (register : Register) : List Statement := assert_type register VECTOR_TYPE
def assert_string (register : Register) : List Statement := assert_type register STRING_TYPE

/-- `assert_closure` is imported by `compiler/function.rs` but its definition
is not part of the sources under `src/`.  Modelled from the spec: "assert it
is a closure" follows the `assert_type` pattern with the closure tag
(spec §4.3, §4.7). -/
def assert_closure (register : Register) : List Statement := assert_type register CLOSURE_TYPE

/-- `assert_natural_number` (types.rs): integer check, then `jl err` when
negative. -/
def assert_natural_number (register : Register) : List Statement :=
  assert_int register ++
  [ .Cmp (.Reg register) (Operand.fromValue (.Int 0)),
    .Jl ERR_LABEL ]

/-- `assert_codepoint` (types.rs, lines 126–167; the identical code also
appears in compiler.rs).  Range check `0..=0x10FFFF`, then the two-range
test around the surrogate block using a FIXED label `"ok"`.  Note the
comparisons: `jl ok` against 55295 and `jg ok` against 57344. -/
def assert_codepoint : List Statement :=
  assert_int .RAX ++
  [ .Cmp RAX (Operand.fromValue (.Int 0)),
    .Jl ERR_LABEL,
    .Cmp RAX (Operand.fromValue (.Int 0x10FFFF)),
    .Jg ERR_LABEL,
    .Cmp RAX (Operand.fromValue (.Int 55295)),
    .Jl "ok",
    .Cmp RAX (Operand.fromValue (.Int 57344)),
    .Jg "ok",
    .Jmp ERR_LABEL,
    .Label "ok" ]

/-- `char_to_int` (types.rs). -/
def char_to_int : List Statement :=
  assert_char .RAX ++ cast_type .RAX CHAR_TYPE INT_TYPE

/-- `int_to_char` (types.rs, lines 59–64): `assert_int`, `assert_codepoint`,
then re-tag as a character. -/
def int_to_char : List Statement :=
  assert_int .RAX ++ assert_codepoint ++ cast_type .RAX INT_TYPE CHAR_TYPE

/-- `assert_byte` (types.rs). -/
def assert_byte (register : Register) : List Statement :=
  assert_int register ++
  [ .Cmp R9 (Operand.fromValue (.Int 0)),
    .Jl ERR_LABEL,
    .Cmp R9 (Operand.fromValue (.Int 255)),
    .Jg ERR_LABEL ]

/-! ### Arithmetic and comparisons (compiler/arithmetic.rs; the same
statement sequences appear in `compile_op2` in compiler.rs) -/

/-- `compile_add`. -/
def compile_add : List Statement :=
  assert_int .RAX ++ assert_int .R8 ++ [ .Add RAX R8 ]

/-- `compile_sub`: returns `r8 - rax`. -/
def compile_sub : List Statement :=
  assert_int .RAX ++ assert_int .R8 ++ [ .Sub R8 RAX, .Mov RAX R8 ]

/-- `compile_add1`. -/
def compile_add1 : List Statement :=
  assert_int .RAX ++ [ .Add RAX (Operand.fromValue (.Int 1)) ]

/-- `compile_sub1`. -/
def compile_sub1 : List Statement :=
  assert_int .RAX ++ [ .Sub RAX (Operand.fromValue (.Int 1)) ]

/-- `compile_is_zero`. -/
def compile_is_zero : List Statement :=
  assert_int .RAX ++ [ .Cmp RAX (Operand.fromValue (.Int 0)) ] ++ if_equal

/-- `compile_int_equal`. -/
def compile_int_equal : List Statement :=
  assert_int .RAX ++ assert_int .R8 ++ [ .Cmp RAX R8 ] ++ if_equal

/-- `compile_less_than` (arithmetic.rs, lines 73–81; identical statements in
`compile_op2` for `Op2::LessThan`, compiler.rs lines 372–378):
`cmp rax, r8` followed by `cmovl`, with the FIRST operand in r8 and the
SECOND in rax. -/
def compile_less_than : List Statement :=
  assert_int .RAX ++ assert_int .R8 ++ [ .Cmp RAX R8 ] ++ if_less_than

/-! ### Foreign-call plumbing (compiler/external_call.rs; duplicated verbatim
in compiler.rs) -/

/-- `pad_stack`: align the stack pointer to 16 bytes before an external
call. -/
def pad_stack : List Statement :=
  [ .Mov R15 RSP, .And R15 (.Immediate 0b1000), .Sub RSP R15 ]

/-- `unpad_stack`. -/
def unpad_stack : List Statement :=
  [ .Add RSP R15 ]

/-- `call` (external_call.rs / compiler.rs). -/
def call (label : String) : List Statement :=
  pad_stack ++ [ .Call label ] ++ unpad_stack

def compile_read_byte : List Statement := call "read_byte"
def compile_peek_byte : List Statement := call "peek_byte"

/-- `compile_write_byte` (external_call.rs; same statements in compiler.rs
`Op1::WriteByte`). -/
def compile_write_byte : List Statement :=
  assert_byte .RAX ++ [ .Mov RDI RAX ] ++ call "write_byte"

/-! ### Boxes and pairs (compiler/box_type.rs, compiler/cons.rs; the same
statements are inlined in compiler.rs) -/

/-- `compile_box`. -/
def compile_box : List Statement :=
  [ .Mov (.Offset .RBX 0) RAX,
    .Mov RAX RBX,
    .Or RAX (.Immediate BOX_TYPE.tag.val),
    .Add RBX (.Immediate 8) ]

/-- `compile_unbox`. -/
def compile_unbox : List Statement :=
  assert_box .RAX ++
  [ .Xor RAX (.Immediate BOX_TYPE.tag.val),
    .Mov RAX (.Offset .RAX 0) ]

/-- `compile_cons` (first value in rax is the cdr at offset 0, r8 the car at
offset 8). -/
def compile_cons : List Statement :=
  [ .Mov (.Offset .RBX 0) RAX,
    .Mov (.Offset .RBX 8) R8,
    .Mov RAX RBX,
    .Or RAX (.Immediate CONS_TYPE.tag.val),
    .Add RBX (.Immediate 16) ]

/-- `compile_car`. -/
def compile_car : List Statement :=
  assert_cons .RAX ++
  [ .Xor RAX (.Immediate CONS_TYPE.tag.val),
    .Mov RAX (.Offset .RAX 8) ]

/-- `compile_cdr`. -/
def compile_cdr : List Statement :=
  assert_cons .RAX ++
  [ .Xor RAX (.Immediate CONS_TYPE.tag.val),
    .Mov RAX (.Offset .RAX 0) ]

/-! ### Vectors (compiler/vector.rs) -/

/-- `compile_make_vector` (vector.rs lines 20–101; identical statements in
compiler.rs).  Length in r8, fill value in rax. -/
def compile_make_vector (c : Compiler) : List Statement × Compiler :=
  let (id1, c) := c.new_label_id
  let (id2, c) := c.new_label_id
  let (id3, c) := c.new_label_id
  let loop_label := "loop_" ++ id1
  let end_label := "end_" ++ id2
  let empty_label := "empty_" ++ id3
  (assert_natural_number .R8 ++
   [ .Cmp R8 (Operand.fromValue (.Int 0)),
     .Je empty_label,
     .Mov R9 RBX,
     .Or R9 (.Immediate VECTOR_TYPE.tag.val),
     .Sar R8 (.Immediate INT_TYPE.shift),
     .Mov (.Offset .RBX 0) R8,
     .Add RBX (.Immediate 8),
     .Label loop_label,
     .Mov (.Offset .RBX 0) RAX,
     .Add RBX (.Immediate 8),
     .Sub R8 (.Immediate 1),
     .Cmp R8 (.Immediate 0),
     .Jne loop_label,
     .Mov RAX R9,
     .Jmp end_label,
     .Label empty_label,
     .Mov RAX (Operand.fromValue .EmptyVector),
     .Label end_label ], c)

/-- `compile_vector_ref` (vector.rs lines 105–156): vector in r8, index in
rax.  Includes the empty-vector special case. -/
def compile_vector_ref : List Statement :=
  assert_vector .R8 ++ assert_natural_number .RAX ++
  [ .Cmp R8 (Operand.fromValue .EmptyVector),
    .Je ERR_LABEL,
    .Xor R8 (.Immediate VECTOR_TYPE.tag.val),
    .Mov R9 (.Offset .R8 0),
    .Sar RAX (.Immediate INT_TYPE.shift),
    .Sub R9 (.Immediate 1),
    .Cmp R9 RAX,
    .Jl ERR_LABEL,
    .Sal RAX (.Immediate 3),
    .Add R8 RAX,
    .Mov RAX (.Offset .R8 8) ]

/-- `compile_vector_set` (vector.rs lines 165–226; the same statements are
inlined in compiler.rs `compile_op3`): vector below index on the stack, new
value in rax.  Pops index into r10 and vector into r8, then checks and
stores. -/
def compile_vector_set (c : Compiler) : List Statement × Compiler :=
  let c := { c with variables_table := c.variables_table.pop }
  let c := { c with variables_table := c.variables_table.pop }
  ([ .Pop R10,
     .Pop R8 ] ++
   assert_vector .R8 ++
   assert_natural_number .R10 ++
   [ .Xor R8 (.Immediate VECTOR_TYPE.tag.val),
     .Mov R9 (.Offset .R8 0),
     .Sar R10 (.Immediate INT_TYPE.shift),
     .Sub R9 (.Immediate 1),
     .Cmp R9 R10,
     .Jl ERR_LABEL,
     .Sal R10 (.Immediate 3),
     .Add R8 R10,
     .Mov (.Offset .R8 8) RAX,
     .Mov RAX (Operand.fromValue .Void) ], c)

/-! ### Strings (compiler/string.rs) -/

/-- `compile_make_string` (string.rs lines 26–130; identical statements in
compiler.rs).  Length in r8, fill character in rax. -/
def compile_make_string (c : Compiler) : List Statement × Compiler :=
  let (id1, c) := c.new_label_id
  let (id2, c) := c.new_label_id
  let (id3, c) := c.new_label_id
  let loop_label := "loop_" ++ id1
  let end_label := "end_" ++ id2
  let empty_label := "empty_" ++ id3
  (assert_natural_number .R8 ++ assert_char .RAX ++
   [ .Cmp R8 (Operand.fromValue (.Int 0)),
     .Je empty_label,
     .Mov R9 RBX,
     .Or R9 (.Immediate STRING_TYPE.tag.val),
     .Sar R8 (.Immediate INT_TYPE.shift),
     .Mov (.Offset .RBX 0) R8,
     .Add RBX (.Immediate 8),
     .Sar RAX (.Immediate CHAR_TYPE.shift),
     .Add R8 (.Immediate 1),
     .Sar R8 (.Immediate 1),
     .Sal R8 (.Immediate 1),
     .Label loop_label,
     .Mov (.Offset .RBX 0) EAX,
     .Add RBX (.Immediate 4),
     .Sub R8 (.Immediate 1),
     .Cmp R8 (.Immediate 0),
     .Jne loop_label,
     .Mov RAX R9,
     .Jmp end_label,
     .Label empty_label,
     .Mov RAX (Operand.fromValue .EmptyString),
     .Label end_label ], c)

/-- `compile_string_ref` (string.rs lines 134–195; identical statements in
compiler.rs): string in r8, index in rax. -/
def compile_string_ref : List Statement :=
  assert_string .R8 ++ assert_natural_number .RAX ++
  [ .Cmp R8 (Operand.fromValue .EmptyString),
    .Je ERR_LABEL,
    .Xor R8 (.Immediate STRING_TYPE.tag.val),
    .Mov R9 (.Offset .R8 0),
    .Sar RAX (.Immediate INT_TYPE.shift),
    .Sub R9 (.Immediate 1),
    .Cmp R9 RAX,
    .Jl ERR_LABEL,
    .Sal RAX (.Immediate 2),
    .Add R8 RAX,
    .Mov EAX (.Offset .R8 8),
    .Sal RAX (.Immediate CHAR_TYPE.shift),
    .Xor RAX (.Immediate CHAR_TYPE.tag.val) ]

/-- `compare_strings` (string.rs lines 199–251).  Sets the comparison flag
for the caller's `je`.  Statement-for-statement from the source: after the
length `cmp` the function pushes NO conditional jump — the following
per-character `cmp`s overwrite the length comparison's flags. -/
def compare_strings (string : List Nat) (c : Compiler) : List Statement × Compiler :=
  let (id, c) := c.new_label_id
  let neq_label := "string_neq_" ++ id
  ([ .Mov R9 RAX,
     .And R9 (.Immediate STRING_TYPE.mask),
     .Cmp R9 (.Immediate STRING_TYPE.tag.val),
     .Jne neq_label,
     .Mov R8 RAX,
     .Xor R8 (.Immediate STRING_TYPE.tag.val),
     .Mov R9 (.Offset .R8 0),
     .Cmp R9 (.Immediate string.length) ] ++
   (string.enum.flatMap fun (i, ch) =>
     [ .Mov R9D (.Immediate ch),
       .Cmp (.Offset .R8 (8 + 4 * i)) R9D,
       .Jne neq_label ]) ++
   [ .Label neq_label ], c)

/-! ### Primitive operator enums (src/mylang/ast.rs) -/

inductive Op0 where
  | ReadByte | PeekByte
deriving DecidableEq, Repr

inductive Op1 where
  | Add1 | Sub1 | IsZero | IsChar | IsEof | IsBox | IsCons | IsVector | IsString
  | IntToChar | CharToInt | WriteByte | Box | Unbox | Car | Cdr
deriving DecidableEq, Repr

inductive Op2 where
  | Add | Sub | LessThan | Equal | Cons | MakeVector | MakeString | VectorRef | StringRef
deriving DecidableEq, Repr

inductive Op3 where
  | VectorSet
deriving DecidableEq, Repr

/-! ### The monolithic compiler (src/mylang/compiler.rs)

`src/mylang/compiler.rs` is the one complete, self-contained `compile`
under `src/` (the modular compiler under `src/mylang/compiler/` is split
over several files and its driver is not part of this snapshot).  Its
expression language — the forms its `compile_expr` actually matches — is
embedded as `Mono.Expr`, and its lowering functions are embedded under the
`Mono` namespace with their source names.
-/

namespace Mono

/-- Literals handled by compiler.rs's `compile_literal` (string literals are
a separate `Expr::String` form there). -/
inductive Lit where
  | Int (i : I64)
  | Bool (b : Bool)
  | Char (c : Nat)
  | EmptyList
deriving DecidableEq, Repr

/-- The expression forms matched by `compile_expr` in compiler.rs. -/
inductive Expr where
  | Eof
  | Lit (l : Mono.Lit)
  | String (s : List Nat)
  | Prim0 (op : Op0)
  | Prim1 (op : Op1) (e : Expr)
  | Prim2 (op : Op2) (e1 e2 : Expr)
  | Prim3 (op : Op3) (e1 e2 e3 : Expr)
  | Begin (e1 e2 : Expr)
  | If (cond then_ els : Expr)
  | Variable (x : Identifier)
  | Let (lhs : Identifier) (rhs body : Expr)
deriving DecidableEq, Repr

/-- `Value::from(lit)` as used by `compile_literal`. -/
def Lit.toValue : Mono.Lit → Value
  | .Int i => .Int i
  | .Bool b => .Boolean b
  | .Char c => .Char c
  | .EmptyList => .EmptyList

/-- `compile_value` (compiler.rs). -/
def compile_value (v : Value) : List Statement :=
  [ .Mov RAX (Operand.fromValue v) ]

/-- `compile_literal` (compiler.rs). -/
def compile_literal (l : Mono.Lit) : List Statement :=
  compile_value l.toValue

/-- `compile_eof` (compiler.rs). -/
def compile_eof : List Statement :=
  compile_value .Eof

/-- `compile_empty_string` (compiler.rs). -/
def compile_empty_string : List Statement :=
  [ .Mov RAX (Operand.fromValue .EmptyString) ]

/-- `compile_string_literal` (compiler.rs lines 679–726): builds the string
in the heap at run time, 4 bytes per character. -/
def compile_string_literal (s : List Nat) : List Statement :=
  if s.isEmpty then compile_empty_string
  else
    [ .Mov R9 RBX,
      .Or R9 (.Immediate STRING_TYPE.tag.val),
      .Mov RAX (.Immediate s.length),
      .Mov (.Offset .RBX 0) RAX,
      .Add RBX (.Immediate 8) ] ++
    (s.flatMap fun ch =>
      [ .Mov EAX (.Immediate ch),
        .Mov (.Offset .RBX 0) EAX,
        .Add RBX (.Immediate 4) ]) ++
    [ .Mov RAX R9 ]

/-- `compile_variable` (compiler.rs lines 935–945).  The
source calls `.expect(…)` — it panics on an undefined variable, a case no
well-formed program reaches; the embedding returns no statements there. -/
def compile_variable (x : Identifier) (c : Compiler) : List Statement :=
  match c.variables_table.position x with
  | some position => [ .Mov RAX (.Offset .RSP (8 * position)) ]
  | none => []

/-- `compile_op1` (compiler.rs lines 213–343).  Each arm's statement list is
identical to the correspondingly named helper from the modular sources,
except `IntToChar`, which compiler.rs writes as `assert_codepoint` followed
by the re-tag (the `assert_int` at the start of `assert_codepoint` covers
the integer check). -/
def compile_op1 : Op1 → List Statement
  | .Add1 => compile_add1
  | .Sub1 => compile_sub1
  | .IsZero => compile_is_zero
  | .IsChar => is_type CHAR_TYPE
  | .IsBox => is_type BOX_TYPE
  | .IsCons => is_type CONS_TYPE
  | .IsVector => is_type VECTOR_TYPE
  | .IsString => is_type STRING_TYPE
  | .IsEof => is_eof
  | .CharToInt => char_to_int
  | .IntToChar => assert_codepoint ++ cast_type .RAX INT_TYPE CHAR_TYPE
  | .WriteByte => compile_write_byte
  | .Box => compile_box
  | .Unbox => compile_unbox
  | .Car => compile_car
  | .Cdr => compile_cdr

/-- `compile_vector_ref` as written in compiler.rs (lines 737–788).  Unlike
the modular `vector.rs` version, it has no empty-vector special case. -/
def compile_vector_ref : List Statement :=
  assert_vector .R8 ++ assert_natural_number .RAX ++
  [ .Xor R8 (.Immediate VECTOR_TYPE.tag.val),
    .Mov R9 (.Offset .R8 0),
    .Sar RAX (.Immediate INT_TYPE.shift),
    .Sub R9 (.Immediate 1),
    .Cmp R9 RAX,
    .Jl ERR_LABEL,
    .Sal RAX (.Immediate 3),
    .Add R8 RAX,
    .Mov RAX (.Offset .R8 8) ]

/-- `compile_op2` (compiler.rs lines 347–413): first operand in r8, second
in rax. -/
def compile_op2 (op : Op2) (c : Compiler) : List Statement × Compiler :=
  match op with
  | .Add => (compile_add, c)
  | .Sub => (compile_sub, c)
  | .Equal => (compile_int_equal, c)
  | .LessThan => (compile_less_than, c)
  | .Cons => (compile_cons, c)
  | .MakeVector => compile_make_vector c
  | .MakeString => compile_make_string c
  | .VectorRef => (Mono.compile_vector_ref, c)
  | .StringRef => (compile_string_ref, c)

/-- `compile_op3` (compiler.rs lines 420–484); the statements are those of
`compile_vector_set`. -/
def compile_op3 (op : Op3) (c : Compiler) : List Statement × Compiler :=
  match op with
  | .VectorSet => compile_vector_set c

/-- `compile_expr` (compiler.rs lines 112–139).  The per-form helpers of
compiler.rs (`compile_prim1/2/3`, `compile_begin`, `compile_if_expr`,
`compile_let`) are mutually recursive with `compile_expr` there; they are
inlined here arm by arm, each arm annotated with the helper it transcribes,
so that the whole becomes one structural recursion. -/
def compile_expr : Mono.Expr → Compiler → List Statement × Compiler
  | .Eof, c => (compile_eof, c)
  | .Lit l, c => (compile_literal l, c)
  | .String s, c => (compile_string_literal s, c)
  | .Prim0 op, c =>
    (match op with
     | .ReadByte => compile_read_byte
     | .PeekByte => compile_peek_byte, c)
  | .Prim1 op e, c =>
    -- compile_prim1 (compiler.rs lines 164–168)
    let (s1, c) := compile_expr e c
    (s1 ++ compile_op1 op, c)
  | .Prim2 op e1 e2, c =>
    -- compile_prim2 (compiler.rs lines 170–188): the first result is pushed
    -- and the variables table gains a scratch slot before the second
    -- operand is compiled; `pop r8` recovers the first operand.
    let (s1, c) := compile_expr e1 c
    let c := { c with variables_table := c.variables_table.push_non_variable }
    let (s2, c) := compile_expr e2 c
    let c := { c with variables_table := c.variables_table.pop }
    let (sop, c) := compile_op2 op c
    (s1 ++ [ .Push RAX ] ++ s2 ++ [ .Pop R8 ] ++ sop, c)
  | .Prim3 op e1 e2 e3, c =>
    -- compile_prim3 (compiler.rs lines 190–210)
    let (s1, c) := compile_expr e1 c
    let c := { c with variables_table := c.variables_table.push_non_variable }
    let (s2, c) := compile_expr e2 c
    let c := { c with variables_table := c.variables_table.push_non_variable }
    let (s3, c) := compile_expr e3 c
    let (sop, c) := compile_op3 op c
    (s1 ++ [ .Push RAX ] ++ s2 ++ [ .Push RAX ] ++ s3 ++ sop, c)
  | .Begin e1 e2, c =>
    -- compile_begin (compiler.rs lines 885–889)
    let (s1, c) := compile_expr e1 c
    let (s2, c) := compile_expr e2 c
    (s1 ++ s2, c)
  | .If cond then_ els, c =>
    -- compile_if_expr (compiler.rs lines 891–916): one fresh id, two labels
    let (label_id, c) := c.new_label_id
    let else_label := "else_" ++ label_id
    let end_label := "end_" ++ label_id
    let (s1, c) := compile_expr cond c
    let (s2, c) := compile_expr then_ c
    let (s3, c) := compile_expr els c
    (s1 ++
     [ .Cmp RAX (Operand.fromValue (.Boolean false)),
       .Je else_label ] ++
     s2 ++
     [ .Jmp end_label,
       .Label else_label ] ++
     s3 ++
     [ .Label end_label ], c)
  | .Variable x, c => (compile_variable x c, c)
  | .Let lhs rhs body, c =>
    -- compile_let (compiler.rs lines 918–933)
    let (s1, c) := compile_expr rhs c
    let c := { c with variables_table := c.variables_table.push_variable lhs }
    let (s2, c) := compile_expr body c
    let c := { c with variables_table := c.variables_table.pop }
    (s1 ++ [ .Push RAX ] ++ s2 ++ [ .Add RSP (.Immediate 8) ], c)

/-- `compile` (compiler.rs lines 74–110): prologue, main expression, `ret`,
then the error trap. -/
def compile (expr : Mono.Expr) : List Statement :=
  let c := Compiler.new
  let (body, _) := compile_expr expr c
  [ .Global "entry",
    .Extern "read_byte",
    .Extern "peek_byte",
    .Extern "write_byte",
    .Extern "raise_error",
    .Label "entry",
    .Mov RBX RDI ] ++
  body ++
  [ .Ret,
    .Label ERR_LABEL ] ++
  pad_stack ++
  [ .Call "raise_error" ]

end Mono

/-! ### Literals and patterns (src/mylang/ast.rs, current era) -/

/-- `Lit` from src/mylang/ast.rs (string literals included). -/
inductive Lit where
  | Int (i : I64)
  | Bool (b : Bool)
  | Char (c : Nat)
  | String (s : List Nat)
  | EmptyList
deriving DecidableEq, Repr

/-- `Pattern` from src/mylang/ast.rs. -/
inductive Pattern where
  | Wildcard
  | Variable (x : Identifier)
  | Lit (l : Lit)
  | Cons (car cdr : Pattern)
  | Box (p : Pattern)
  | And (left right : Pattern)
deriving DecidableEq, Repr

/-! ### Pattern-match compiler (src/mylang/compiler/pattern_match.rs) -/

/-- `CompiledPattern` (pattern_match.rs): the match/bind instructions and
the environment extended with the pattern's bindings. -/
structure CompiledPattern where
  statements : List Statement
  env : VariablesTable
deriving DecidableEq, Repr

/-- `compare_literal` (pattern_match.rs lines 155–169): sets the comparison
flag for the caller's `je`. -/
def compare_literal (lit : Lit) (c : Compiler) : List Statement × Compiler :=
  match lit with
  | .Int i => ([ .Cmp RAX (Operand.fromValue (.Int i)) ], c)
  | .Bool b => ([ .Cmp RAX (Operand.fromValue (.Boolean b)) ], c)
  | .Char ch => ([ .Cmp RAX (Operand.fromValue (.Char ch)) ], c)
  | .EmptyList => ([ .Cmp RAX (Operand.fromValue .EmptyList) ], c)
  | .String s => compare_strings s c

/-- `compile_wildcard_pattern` (pattern_match.rs). -/
def compile_wildcard_pattern (env : VariablesTable) : CompiledPattern :=
  ⟨[], env⟩

/-- `compile_variable_pattern` (pattern_match.rs). -/
def compile_variable_pattern (x : Identifier) (env : VariablesTable) : CompiledPattern :=
  ⟨[ .Push RAX ], env.with_var x⟩

/-- `compile_literal_pattern` (pattern_match.rs lines 123–151).  On
mismatch the failure path emits `add rsp, 8 * env.len()` — `env` being the
WHOLE variables table passed in — and jumps to the next arm's label. -/
def compile_literal_pattern (lit : Lit) (c : Compiler) (env : VariablesTable)
    (next_label : String) : CompiledPattern × Compiler :=
  let (id, c) := c.new_label_id
  let matched_label := "matched_" ++ id
  let (cmp, c) := compare_literal lit c
  (⟨cmp ++
    [ .Je matched_label,
      .Add RSP (.Immediate (8 * env.len)),
      .Jmp next_label,
      .Label matched_label ], env⟩, c)

/-- `compile_pattern` (pattern_match.rs lines 94–111).  The box, cons and
and arms transcribe `compile_box_pattern` (lines 171–221),
`compile_cons_pattern` (lines 223–292) and `compile_and_pattern`
(lines 294–321); they are inlined so the whole is one structural
recursion over the pattern. -/
def compile_pattern (pattern : Pattern) (c : Compiler) (env : VariablesTable)
    (next_label : String) : CompiledPattern × Compiler :=
  match pattern with
  | .Wildcard => (compile_wildcard_pattern env, c)
  | .Variable x => (compile_variable_pattern x env, c)
  | .Lit lit => compile_literal_pattern lit c env next_label
  | .Box p =>
    -- compile_box_pattern (pattern_match.rs lines 171–221)
    let (id, c) := c.new_label_id
    let matched_label := "matched_" ++ id
    let (sub, c) := compile_pattern p c env next_label
    (⟨[ .Mov R9 RAX,
        .And R9 (.Immediate BOX_TYPE.mask),
        .Cmp R9 (.Immediate BOX_TYPE.tag.val),
        .Je matched_label,
        .Add RSP (.Immediate (8 * env.len)),
        .Jmp next_label,
        .Label matched_label,
        .Xor RAX (.Immediate BOX_TYPE.tag.val),
        .Mov RAX (.Offset .RAX 0) ] ++
      sub.statements, sub.env⟩, c)
  | .Cons car cdr =>
    -- compile_cons_pattern (pattern_match.rs lines 223–292)
    let (id, c) := c.new_label_id
    let matched_label := "matched_" ++ id
    let env1 := env.with_non_var
    let (car_result, c) := compile_pattern car c env1 next_label
    let (cdr_result, c) := compile_pattern cdr c car_result.env next_label
    (⟨[ .Mov R9 RAX,
        .And R9 (.Immediate CONS_TYPE.mask),
        .Cmp R9 (.Immediate CONS_TYPE.tag.val),
        .Je matched_label,
        .Add RSP (.Immediate (8 * env.len)),
        .Jmp next_label,
        .Label matched_label,
        .Xor RAX (.Immediate CONS_TYPE.tag.val),
        .Mov R8 (.Offset .RAX 0),
        .Push R8,
        .Mov RAX (.Offset .RAX 8) ] ++
      car_result.statements ++
      [ .Mov RAX (.Offset .RSP (8 * (car_result.env.len - env1.len))) ] ++
      cdr_result.statements, cdr_result.env⟩, c)
  | .And left right =>
    -- compile_and_pattern (pattern_match.rs lines 294–321)
    let env1 := env.with_non_var
    let (left_result, c) := compile_pattern left c env1 next_label
    let (right_result, c) := compile_pattern right c left_result.env next_label
    (⟨[ .Push RAX ] ++
      left_result.statements ++
      [ .Mov RAX (.Offset .RSP (8 * (left_result.env.len - env1.len))) ] ++
      right_result.statements, right_result.env⟩, c)

/-! ### Closures and calls (src/mylang/compiler/function.rs)

`free_variables` (function.rs lines 554–614) returns a Rust
`HashSet<Identifier>`.  A `HashSet`'s contents are determined by the code,
but its iteration order is not: every `HashSet` instance draws a fresh
hasher key from the thread-local `RandomState`, so two sets holding the
same identifiers — even two built one after the other in the same run —
may enumerate them in different orders, and the same program text may
enumerate them differently on different runs.  The embedding therefore
computes the set's CONTENTS as a duplicate-free list (`free_variables`),
and every function that iterates a `HashSet` takes the iteration order as
an explicit list parameter, constrained by `IsHashSetIter`. -/

/-- `HashSet::insert` on the contents list. -/
def hsInsert (l : List Identifier) (x : Identifier) : List Identifier :=
  if x ∈ l then l else l ++ [x]

/-- `HashSet::extend` on the contents list. -/
def hsExtend (l l2 : List Identifier) : List Identifier :=
  l2.foldl hsInsert l

/-- `HashSet::remove` on the contents list. -/
def hsRemove (l : List Identifier) (x : Identifier) : List Identifier :=
  l.filter (fun y => y ≠ x)

/-- `ord` is a possible iteration order of a `HashSet` whose contents are
`s`: an enumeration of exactly those elements, each once, in any order. -/
def IsHashSetIter (s ord : List Identifier) : Prop :=
  ord.Perm s

instance (s ord : List Identifier) : Decidable (IsHashSetIter s ord) :=
  inferInstanceAs (Decidable (ord.Perm s))

/-- The full expression AST of src/mylang/ast.rs (the modular compiler's
input; the `Let`, `App`, `If`, `Match`, `Lambda` payload structs are
flattened into constructor arguments). -/
inductive Expr where
  | Eof
  | Lit (l : Lit)
  | Prim0 (op : Op0)
  | Prim1 (op : Op1) (e : Expr)
  | Prim2 (op : Op2) (e1 e2 : Expr)
  | Prim3 (op : Op3) (e1 e2 e3 : Expr)
  | Begin (e1 e2 : Expr)
  | Variable (x : Identifier)
  | Let (lhs : Identifier) (rhs body : Expr)
  | App (function : Expr) (args : List Expr)
  | If (cond then_ els : Expr)
  | Match (scrut : Expr) (arms : List (Pattern × Expr))
  | Lambda (id : Identifier) (params : List Identifier) (body : Expr)

/-- `Lambda { id, params, body }` from src/mylang/ast.rs. -/
structure Lambda where
  id : Identifier
  params : List Identifier
  body : Expr

/-- `Expr::Lambda(lambda.clone())` as built at the `free_variables` call
sites in function.rs. -/
def Lambda.toExpr (l : Lambda) : Expr :=
  .Lambda l.id l.params l.body

mutual

/-- The contents of `free_variables` (function.rs lines 554–614).  The
`for` loops over `Vec`s become the `_list`/`_arms` helpers.  Note the
`Lambda` arm removes only the parameters — the lambda's own `id` is
ignored (`id: _`). -/
def free_variables : Expr → List Identifier
  | .Variable id => [id]
  | .Prim1 _ e => free_variables e
  | .Prim2 _ e1 e2 => hsExtend (free_variables e1) (free_variables e2)
  | .Prim3 _ e1 e2 e3 =>
    hsExtend (hsExtend (free_variables e1) (free_variables e2)) (free_variables e3)
  | .Begin e1 e2 => hsExtend (free_variables e1) (free_variables e2)
  | .App f args => hsExtend (free_variables f) (free_variables_list args)
  | .If cond then_ els =>
    hsExtend (hsExtend (free_variables cond) (free_variables then_)) (free_variables els)
  | .Match e arms => hsExtend (free_variables e) (free_variables_arms arms)
  | .Let lhs rhs body =>
    hsRemove (hsExtend (free_variables rhs) (free_variables body)) lhs
  | .Lambda _ params body => params.foldl hsRemove (free_variables body)
  | .Lit _ => []
  | .Eof => []
  | .Prim0 _ => []

def free_variables_list : List Expr → List Identifier
  | [] => []
  | e :: es => hsExtend (free_variables e) (free_variables_list es)

def free_variables_arms : List (Pattern × Expr) → List Identifier
  | [] => []
  | (_, body) :: rest => hsExtend (free_variables body) (free_variables_arms rest)

end

/-- `get_label` (function.rs). -/
def get_label (lambda : Lambda) : String :=
  "lambda_" ++ lambda.id

/-- `capture_variables` (function.rs lines 275–300): copy each variable of
the iterated set from its stack slot to `[rbx + offset + 8*i]`.  The order
of the stores is the iteration order of the `HashSet` argument.  (The
source panics via `.expect` on an unbound capture, a case unreachable for
well-formed programs; the embedding emits nothing there.) -/
def capture_variables (variables_iter : List Identifier) (env : VariablesTable)
    (offset : Nat) : List Statement :=
  variables_iter.enum.flatMap fun (i, v) =>
    match env.position v with
    | some pos =>
      [ .Mov R8 (.Offset .RSP (8 * pos)),
        .Mov (.Offset .RBX (offset + 8 * i)) R8 ]
    | none => []

/-- `compile_closure` (function.rs lines 236–272): code address at word 0,
captured values at words 1..k in the iteration order of THIS call's fresh
`free_variables` HashSet. -/
def compile_closure (lambda : Lambda) (env : VariablesTable)
    (free_vars_iter : List Identifier) : List Statement :=
  [ .Lea RAX (get_label lambda),
    .Mov (.Offset .RBX 0) RAX ] ++
  capture_variables free_vars_iter env 8 ++
  [ .Mov RAX RBX,
    .Or RAX (.Immediate CLOSURE_TYPE.tag.val),
    .Add RBX (.Immediate (8 * (free_vars_iter.length + 1))) ]

/-- The environment in which `compile_lambda_definition` (function.rs
lines 168–233) compiles the body: a scratch slot for the closure pointer,
the parameters, then the captured variables in the iteration order of THIS
call's own fresh `free_variables` HashSet. -/
def compile_lambda_definition_env (lambda : Lambda)
    (free_vars_iter : List Identifier) : VariablesTable :=
  ((VariablesTable.new.with_non_var).extended lambda.params).extended free_vars_iter

/-- The label and prologue emitted by `compile_lambda_definition`
(function.rs lines 168–233) ahead of the body: load the closure pointer
from `[rsp + 8*nparams]`, strip the tag, then push closure words 1..k in
order (word i is pushed i-th, so the LAST element of the iteration order
ends nearest the stack pointer).  The compiled body and the
`add rsp, 8*env.len ; ret` epilogue follow in the source. -/
def compile_lambda_definition_prologue (lambda : Lambda)
    (free_vars_iter : List Identifier) : List Statement :=
  [ .Label (get_label lambda),
    .Mov RAX (.Offset .RSP (8 * lambda.params.length)),
    .Xor RAX (.Immediate CLOSURE_TYPE.tag.val) ] ++
  ((List.range free_vars_iter.length).flatMap fun i =>
    [ .Mov R8 (.Offset .RAX (8 + 8 * i)),
      .Push R8 ])

/-- `move_args` (function.rs lines 462–485): copy the top `n_args` stack
words up by `offset` words (descending index order), then `add rsp,
8*offset`.  Returns nothing when `n_args == 0 || offset == 0`. -/
def move_args (n_args offset : Nat) : List Statement :=
  if n_args = 0 ∨ offset = 0 then []
  else
    ((List.range n_args).reverse.flatMap fun i =>
      [ .Mov R8 (.Offset .RSP (8 * i)),
        .Mov (.Offset .RSP (8 * (i + offset))) R8 ]) ++
    [ .Add RSP (.Immediate (8 * offset)) ]

/-- The closing statements of `compile_function_application_tail`
(function.rs lines 378–458), emitted after the callee and the `n_args`
arguments have been compiled and pushed (those prefixes are recursive
`compile_expr` output and play no role in the stack-pointer accounting):
slide the `n_args+1` pushed words down over the `n_env` live slots of the
outgoing frame, adjust rsp, load the code pointer, and jump indirectly. -/
def compile_function_application_tail_finish (n_args n_env : Nat) : List Statement :=
  move_args (n_args + 1) n_env ++
  [ .Mov RAX (.Offset .RSP (8 * n_args)),
    .Xor RAX (.Immediate CLOSURE_TYPE.tag.val),
    .Mov RAX (.Offset .RAX 0),
    .JmpRegister .RAX ]

/-- The per-word copy statements of `move_args`, indexed by the list of
source slots; `move_args n off` is `slideStmts off (range n).reverse`
followed by the `add rsp` adjustment. -/
def slideStmts (off : Nat) (is : List Nat) : List Statement :=
  is.flatMap fun i =>
    [ .Mov R8 (.Offset .RSP (8 * i)),
      .Mov (.Offset .RSP (8 * (i + off))) R8 ]

/-- The rax register of a normally finished run. -/
def finalRax : Outcome → Option I64
  | .ok s => some s.rax
  | _ => none

/-- The label a run jumped to, if it ended in a (forward or outward) jump. -/
def jumpDest : Outcome → Option String
  | .jumped l _ => some l
  | _ => none

/-- The jump label together with the stack pointer at the jump. -/
def jumpRsp : Outcome → Option (String × I64)
  | .jumped l s => some (l, s.rsp)
  | _ => none

/-- The comparison flags of a normally finished run. -/
def finalFlags : Outcome → Option Ordering
  | .ok s => some s.flags
  | _ => none

/-- The names of all `Label` pseudo-statements of an emitted sequence, in
order, with multiplicity. -/
def labelNames (stmts : List Statement) : List String :=
  stmts.filterMap fun st => match st with | .Label n => some n | _ => none

lemma runStmts_mono : ∀ (f f' : Nat) (xs : List Statement) (s : MachineState) (o : Outcome),
    runStmts f xs s = o → o ≠ .fuelOut → f ≤ f' → runStmts f' xs s = o := by
  intro f
  induction f with
  | zero =>
    intro f' xs s o h ho hf
    cases xs with
    | nil =>
      simp only [runStmts] at h
      cases f' <;> simp only [runStmts] <;> exact h
    | cons a l =>
      simp only [runStmts] at h
      exact absurd h.symm (by simpa using ho)
  | succ f ih =>
    intro f' xs s o h ho hf
    cases xs with
    | nil =>
      simp only [runStmts] at h
      cases f' <;> simp only [runStmts] <;> exact h
    | cons stmt rest =>
      obtain ⟨f'', rfl⟩ : ∃ f'', f' = f'' + 1 := ⟨f' - 1, by omega⟩
      have hf'' : f ≤ f'' := by omega
      cases stmt <;> simp only [runStmts] at h ⊢ <;>
        first
          | exact ih f'' _ _ _ h ho hf''
          | exact h
          | (split_ifs at h ⊢ <;>
              first
                | exact ih f'' _ _ _ h ho hf''
                | exact h)

lemma hasLabel_append (l : String) (xs ys : List Statement) :
    hasLabel l (xs ++ ys) = (hasLabel l xs || hasLabel l ys) := by
  induction xs with
  | nil => simp [hasLabel]
  | cons a tl ih =>
    cases a <;> simp [hasLabel, ih, Bool.or_assoc]

lemma dropToLabel_append (l : String) (xs ys : List Statement) (h : hasLabel l xs = true) :
    dropToLabel l (xs ++ ys) = dropToLabel l xs ++ ys := by
  induction xs with
  | nil => simp [hasLabel] at h
  | cons a tl ih =>
    cases a <;> simp only [hasLabel, dropToLabel, List.cons_append] at h ⊢ <;>
      first
        | exact ih h
        | (split_ifs with hc
           · rfl
           · exact ih (by simpa [hc] using h))

lemma runStmts_append_ok : ∀ (f : Nat) (xs : List Statement) (s s' : MachineState)
    (g : Nat) (ys : List Statement) (o : Outcome),
    runStmts f xs s = .ok s' → runStmts g ys s' = o → o ≠ .fuelOut →
    runStmts (f + g) (xs ++ ys) s = o := by
  intro f
  induction f with
  | zero =>
    intro xs s s' g ys o h1 h2 ho
    cases xs with
    | nil =>
      simp only [runStmts, Outcome.ok.injEq] at h1
      subst h1
      simpa using h2
    | cons a l => simp [runStmts] at h1
  | succ f ih =>
    intro xs s s' g ys o h1 h2 ho
    cases xs with
    | nil =>
      simp only [runStmts, Outcome.ok.injEq] at h1
      subst h1
      exact runStmts_mono g (f + 1 + g) ys s o h2 ho (by omega)
    | cons stmt rest =>
      have hsucc : f + 1 + g = (f + g) + 1 := by omega
      rw [hsucc, List.cons_append]
      cases stmt
      case Jmp l =>
        simp only [runStmts] at h1 ⊢
        by_cases hl : hasLabel l rest = true
        · rw [if_pos hl] at h1
          rw [hasLabel_append, hl, Bool.true_or, if_pos rfl, dropToLabel_append _ _ _ hl]
          exact ih _ _ s' g ys o h1 h2 ho
        · rw [if_neg hl] at h1
          exact absurd h1 (by simp)
      case Je l =>
        simp only [runStmts] at h1 ⊢
        by_cases hc : s.flags = Ordering.eq
        · rw [if_pos hc] at h1 ⊢
          by_cases hl : hasLabel l rest = true
          · rw [if_pos hl] at h1
            rw [hasLabel_append, hl, Bool.true_or, if_pos rfl, dropToLabel_append _ _ _ hl]
            exact ih _ _ s' g ys o h1 h2 ho
          · rw [if_neg hl] at h1
            exact absurd h1 (by simp)
        · rw [if_neg hc] at h1 ⊢
          exact ih _ _ s' g ys o h1 h2 ho
      case Jne l =>
        simp only [runStmts] at h1 ⊢
        by_cases hc : s.flags ≠ Ordering.eq
        · rw [if_pos hc] at h1 ⊢
          by_cases hl : hasLabel l rest = true
          · rw [if_pos hl] at h1
            rw [hasLabel_append, hl, Bool.true_or, if_pos rfl, dropToLabel_append _ _ _ hl]
            exact ih _ _ s' g ys o h1 h2 ho
          · rw [if_neg hl] at h1
            exact absurd h1 (by simp)
        · rw [if_neg hc] at h1 ⊢
          exact ih _ _ s' g ys o h1 h2 ho
      case Jg l =>
        simp only [runStmts] at h1 ⊢
        by_cases hc : s.flags = Ordering.gt
        · rw [if_pos hc] at h1 ⊢
          by_cases hl : hasLabel l rest = true
          · rw [if_pos hl] at h1
            rw [hasLabel_append, hl, Bool.true_or, if_pos rfl, dropToLabel_append _ _ _ hl]
            exact ih _ _ s' g ys o h1 h2 ho
          · rw [if_neg hl] at h1
            exact absurd h1 (by simp)
        · rw [if_neg hc] at h1 ⊢
          exact ih _ _ s' g ys o h1 h2 ho
      case Jl l =>
        simp only [runStmts] at h1 ⊢
        by_cases hc : s.flags = Ordering.lt
        · rw [if_pos hc] at h1 ⊢
          by_cases hl : hasLabel l rest = true
          · rw [if_pos hl] at h1
            rw [hasLabel_append, hl, Bool.true_or, if_pos rfl, dropToLabel_append _ _ _ hl]
            exact ih _ _ s' g ys o h1 h2 ho
          · rw [if_neg hl] at h1
            exact absurd h1 (by simp)
        · rw [if_neg hc] at h1 ⊢
          exact ih _ _ s' g ys o h1 h2 ho
      all_goals
        simp only [runStmts] at h1 ⊢
      all_goals
        first
          | exact ih _ _ s' g ys o h1 h2 ho
          | exact absurd h1 (by simp)

lemma compare_int_eq {x y : Int} (h : x = y) : compare x y = Ordering.eq :=
  compare_eq_iff_eq.mpr h

lemma compare_int_not_lt {x y : Int} (h : y ≤ x) : (compare x y = Ordering.lt) = False := by
  simp only [compare_lt_iff_lt, eq_iff_iff, iff_false]
  omega

lemma compare_int_not_eq {x y : Int} (h : x ≠ y) : (compare x y = Ordering.eq) = False := by
  simp only [compare_eq_iff_eq, eq_iff_iff, iff_false]
  exact h

lemma wrap64_small {x : Int} (h1 : -(2 ^ 63) ≤ x) (h2 : x < 2 ^ 63) : wrap64 x = x := by
  unfold wrap64
  omega

lemma toU64_small {a : Int} (h0 : 0 ≤ a) (h : a < 2 ^ 63) : (toU64 a : Int) = a := by
  unfold toU64
  omega

lemma ofU64_small {n : Nat} (h : n < 2 ^ 63) : ofU64 n = n := by
  unfold ofU64
  rw [if_pos h]

lemma bitAnd64_mask8 {a : Int} (h0 : 0 ≤ a) (h : a < 2 ^ 63) : bitAnd64 a 7 = a % 8 := by
  have h1 : (toU64 a : Int) = a := toU64_small h0 h
  have h3 : toU64 a &&& toU64 7 = toU64 a % 8 := by
    have h4 := Nat.and_pow_two_sub_one_eq_mod (toU64 a) 3
    norm_num at h4
    have h2 : toU64 7 = 7 := by decide
    rw [h2]
    exact h4
  unfold bitAnd64
  rw [h3, ofU64_small (by omega)]
  omega

lemma bitAnd64_mask16 {a : Int} (h0 : 0 ≤ a) (h : a < 2 ^ 63) : bitAnd64 a 15 = a % 16 := by
  have h1 : (toU64 a : Int) = a := toU64_small h0 h
  have h3 : toU64 a &&& toU64 15 = toU64 a % 16 := by
    have h4 := Nat.and_pow_two_sub_one_eq_mod (toU64 a) 4
    norm_num at h4
    have h2 : toU64 15 = 15 := by decide
    rw [h2]
    exact h4
  unfold bitAnd64
  rw [h3, ofU64_small (by omega)]
  omega

lemma nat_xor_untag {c t : Nat} (ht : t < 8) : (8 * c + t) ^^^ t = 8 * c := by
  apply Nat.eq_of_testBit_eq
  intro j
  have h8 : 8 * c + t = 2 ^ 3 * c + t := by ring_nf
  rw [Nat.testBit_xor]
  by_cases hj : j < 3
  · have b1 : (8 * c + t).testBit j = t.testBit j := by
      rw [h8, Nat.testBit_mul_pow_two_add c ht j, if_pos hj]
    have b2 : (8 * c).testBit j = false := by
      rw [show (8 : Nat) * c = 2 ^ 3 * c by ring_nf, Nat.testBit_mul_pow_two]
      simp
      omega
    rw [b1, b2, Bool.xor_self]
  · have b1 : (8 * c + t).testBit j = c.testBit (j - 3) := by
      rw [h8, Nat.testBit_mul_pow_two_add c ht j, if_neg hj]
    have b2 : t.testBit j = false := by
      apply Nat.testBit_lt_two_pow
      calc t < 8 := ht
        _ ≤ 2 ^ j := by
            calc (8 : Nat) = 2 ^ 3 := by norm_num
              _ ≤ 2 ^ j := Nat.pow_le_pow_right (by norm_num) (by omega)
    have b3 : (8 * c).testBit j = c.testBit (j - 3) := by
      rw [show (8 : Nat) * c = 2 ^ 3 * c by ring_nf, Nat.testBit_mul_pow_two]
      simp
      omega
    rw [b1, b2, b3, Bool.xor_false]

lemma bitXor64_untag {a t : Int} (h8 : a % 8 = 0) (h0 : 0 ≤ a) (hb : a < 2 ^ 62)
    (ht0 : 0 ≤ t) (ht : t < 8) : bitXor64 (a + t) t = a := by
  have h1 : (toU64 (a + t) : Int) = a + t := toU64_small (by omega) (by omega)
  have h2 : (toU64 t : Int) = t := toU64_small ht0 (by omega)
  have hc : toU64 (a + t) = 8 * (a.toNat / 8) + t.toNat := by omega
  have hct : toU64 t = t.toNat := by omega
  unfold bitXor64
  rw [hc, hct, nat_xor_untag (by omega), ofU64_small (by omega)]
  omega

lemma sar64_shift4 (i : Int) : sar64 (16 * i) 4 = i := by
  unfold sar64
  omega

lemma sal64_shift3 {i : Int} (h0 : -(2 ^ 59) ≤ i) (h : i < 2 ^ 59) : sal64 i 3 = 8 * i := by
  unfold sal64
  have h2 : i * 2 ^ 3 = 8 * i := by ring
  rw [h2, wrap64_small (by omega) (by omega)]

lemma load64_cons_eq {m : List (Int × Int)} {k v : Int} : load64 ((k, v) :: m) k = v := by
  simp [load64, List.lookup]

lemma load64_cons_ne {m : List (Int × Int)} {a k v : Int} (h : a ≠ k) :
    load64 ((k, v) :: m) a = load64 m a := by
  have hk : (a == k) = false := beq_eq_false_iff_ne.mpr h
  simp [load64, List.lookup, hk]

section c9segments

lemma seg_assert_vector (a : Int) (s : MachineState)
    (h8 : a % 8 = 0) (h0 : 0 ≤ a) (hb : a < 2 ^ 62) (hr : s.r8 = a + 3) :
    runStmts 4 (assert_vector .R8) s = .ok { s with r9 := 3, flags := .eq } := by
  have e1 : bitAnd64 (a + 3) 7 = 3 := by rw [bitAnd64_mask8 (by omega) (by omega)]; omega
  simp (disch := omega) [assert_vector, assert_type, runStmts, MachineState.execMov,
    MachineState.execCmp, MachineState.evalSrc, MachineState.writeDest, MachineState.writeReg,
    MachineState.readReg, Operand.is32, R9, RAX, R8, ERR_LABEL, hr, wrap64_small, e1,
    compare_int_eq, UnaryType.mask, VECTOR_TYPE, IMMEDIATE_SHIFT]

lemma seg_assert_natural_rax (i : Int) (s : MachineState)
    (hi0 : 0 ≤ i) (hib : i < 2 ^ 58) (hr : s.rax = 16 * i) :
    runStmts 6 (assert_natural_number .RAX) s =
      .ok { s with r9 := 0, flags := compare (16 * i) 0 } := by
  have e2 : bitAnd64 (16 * i) 15 = 0 := by rw [bitAnd64_mask16 (by omega) (by omega)]; omega
  simp (disch := omega) [assert_natural_number, assert_int, assert_type, runStmts,
    MachineState.execMov, MachineState.execCmp, MachineState.evalSrc, MachineState.writeDest,
    MachineState.writeReg, MachineState.readReg, Operand.is32, Operand.fromValue, Value.encode,
    R9, RAX, R8, ERR_LABEL, hr, wrap64_small, e2, compare_int_eq, compare_int_not_lt,
    UnaryType.mask, UnaryType.encode, INT_TYPE, IMMEDIATE_SHIFT]

end c9segments

lemma seg_vector_ref_tail (a L i xr : Int) (s : MachineState)
    (ha8 : a % 8 = 0) (ha1 : 8 ≤ a) (ha2 : a < 2 ^ 60)
    (hi0 : 0 ≤ i) (hiL : i < L) (hL2 : L < 2 ^ 56)
    (hx1 : -(2 ^ 62) ≤ xr) (hx2 : xr < 2 ^ 62)
    (hr8 : s.r8 = a + 3) (hrax : s.rax = 16 * i)
    (hl1 : load64 s.mem a = L) (hl2 : load64 s.mem (a + 8 * i + 8) = xr) :
    runStmts 11
      [ .Cmp R8 (Operand.fromValue .EmptyVector),
        .Je ERR_LABEL,
        .Xor R8 (.Immediate VECTOR_TYPE.tag.val),
        .Mov R9 (.Offset .R8 0),
        .Sar RAX (.Immediate INT_TYPE.shift),
        .Sub R9 (.Immediate 1),
        .Cmp R9 RAX,
        .Jl ERR_LABEL,
        .Sal RAX (.Immediate 3),
        .Add R8 RAX,
        .Mov RAX (.Offset .R8 8) ] s =
      .ok { s with rax := xr, r8 := a + 8 * i, r9 := L - 1, flags := compare (L - 1) i } := by
  have e3 : bitXor64 (a + 3) 3 = a := bitXor64_untag ha8 (by omega) (by omega) (by omega) (by omega)
  have hemp : (compare (a + 3) (3 : Int) = Ordering.eq) = False := compare_int_not_eq (by omega)
  simp (disch := omega) [runStmts, MachineState.execMov, MachineState.execCmp,
    MachineState.evalSrc, MachineState.writeDest, MachineState.writeReg, MachineState.readReg,
    Operand.is32, Operand.fromValue, Value.encode, RAX, R8, R9, ERR_LABEL,
    hr8, hrax, hl1, hl2, hemp, wrap64_small, e3,
    compare_int_not_lt, sar64_shift4, sal64_shift3,
    UnaryType.mask, UnaryType.encode, VECTOR_TYPE, INT_TYPE, IMMEDIATE_SHIFT]

lemma compile_vector_ref_run (a L i xr : Int) (s : MachineState)
    (ha8 : a % 8 = 0) (ha1 : 8 ≤ a) (ha2 : a < 2 ^ 60)
    (hi0 : 0 ≤ i) (hiL : i < L) (hL2 : L < 2 ^ 56)
    (hx1 : -(2 ^ 62) ≤ xr) (hx2 : xr < 2 ^ 62)
    (hr8 : s.r8 = a + 3) (hrax : s.rax = 16 * i)
    (hl1 : load64 s.mem a = L) (hl2 : load64 s.mem (a + 8 * i + 8) = xr) :
    runStmts 21 compile_vector_ref s =
      .ok { s with rax := xr, r8 := a + 8 * i, r9 := L - 1, flags := compare (L - 1) i } := by
  have hA := seg_assert_vector a s ha8 (by omega) (by omega) hr8
  have hB := seg_assert_natural_rax i { s with r9 := 3, flags := .eq }
    hi0 (by omega) (by simpa using hrax)
  have hC := seg_vector_ref_tail a L i xr
    { s with r9 := 0, flags := compare (16 * i) 0 }
    ha8 ha1 ha2 hi0 hiL hL2 hx1 hx2 (by simpa using hr8) (by simpa using hrax)
    (by simpa using hl1) (by simpa using hl2)
  have hBC := runStmts_append_ok 6 (assert_natural_number .RAX)
    { s with r9 := 3, flags := .eq } _ 11 _ _ hB (by exact hC) (by simp)
  have hfull := runStmts_append_ok 4 (assert_vector .R8) s _ 17 _ _ hA (by exact hBC) (by simp)
  have hshape : compile_vector_ref =
      assert_vector .R8 ++ (assert_natural_number .RAX ++
        [ .Cmp R8 (Operand.fromValue .EmptyVector),
          .Je ERR_LABEL,
          .Xor R8 (.Immediate VECTOR_TYPE.tag.val),
          .Mov R9 (.Offset .R8 0),
          .Sar RAX (.Immediate INT_TYPE.shift),
          .Sub R9 (.Immediate 1),
          .Cmp R9 RAX,
          .Jl ERR_LABEL,
          .Sal RAX (.Immediate 3),
          .Add R8 RAX,
          .Mov RAX (.Offset .R8 8) ]) := by
    simp [compile_vector_ref]
  rw [hshape]
  exact hfull

lemma compile_vector_set_run (a L i x rsp0 : Int) (M : List (Int × Int))
    (ha8 : a % 8 = 0) (ha1 : 8 ≤ a) (ha2 : a < 2 ^ 60)
    (hi0 : 0 ≤ i) (hiL : i < L) (hL2 : L < 2 ^ 56)
    (hx1 : -(2 ^ 62) ≤ x) (hx2 : x < 2 ^ 62)
    (hM1 : load64 M rsp0 = 16 * i)
    (hM2 : load64 M (rsp0 + 8) = a + 3)
    (hM3 : load64 M a = L) :
    runStmts 30 (compile_vector_set Compiler.new).1 { rsp := rsp0, rax := x, mem := M } =
      .ok { rax := 120, r8 := a + 8 * i, r9 := L - 1, r10 := 8 * i, rsp := rsp0 + 16,
            flags := compare (L - 1) i, mem := (a + 8 * i + 8, x) :: M } := by
  have e1 : bitAnd64 (a + 3) 7 = 3 := by rw [bitAnd64_mask8 (by omega) (by omega)]; omega
  have e2 : bitAnd64 (16 * i) 15 = 0 := by rw [bitAnd64_mask16 (by omega) (by omega)]; omega
  have e3 : bitXor64 (a + 3) 3 = a := bitXor64_untag ha8 (by omega) (by omega) (by omega) (by omega)
  simp (disch := omega) [compile_vector_set, assert_vector, assert_natural_number, assert_int,
    assert_type, Compiler.new, runStmts, MachineState.execMov, MachineState.execCmp,
    MachineState.evalSrc, MachineState.writeDest, MachineState.writeReg, MachineState.readReg,
    Operand.is32, Operand.fromValue, Value.encode, RAX, R8, R9, R10, ERR_LABEL, store64,
    hM1, hM2, hM3, wrap64_small, e1, e2, e3,
    compare_int_eq, compare_int_not_lt, compare_int_not_eq, sar64_shift4, sal64_shift3,
    UnaryType.mask, UnaryType.encode, VECTOR_TYPE, INT_TYPE, IMMEDIATE_SHIFT, VOID_TYPE]
  omega

/-- C9: for a heap vector of length L at 8-aligned address `a` (tagged
pointer `a + 3`) and an index `i` with `0 ≤ i < L`, running the emitted
`vector-set!` code (vector and encoded index on the stack, the new element
`x` in rax) finishes without reaching the error label and leaves the
encoded void value in rax, and running the emitted `vector-ref` code on the
updated memory (tagged vector in r8, encoded index in rax) finishes without
reaching the error label and leaves `x` in rax. -/
theorem c9_vector_set_then_ref (a L i x rsp0 : Int) (M : List (Int × Int))
    (ha8 : a % 8 = 0) (ha1 : 8 ≤ a) (ha2 : a < 2 ^ 60)
    (hi0 : 0 ≤ i) (hiL : i < L) (hL2 : L < 2 ^ 56)
    (hx1 : -(2 ^ 62) ≤ x) (hx2 : x < 2 ^ 62)
    (hM1 : load64 M rsp0 = 16 * i)
    (hM2 : load64 M (rsp0 + 8) = a + 3)
    (hM3 : load64 M a = L) :
    ∃ s1 s2 : MachineState,
      runStmts 30 (compile_vector_set Compiler.new).1
        { rsp := rsp0, rax := x, mem := M } = .ok s1 ∧
      s1.rax = Value.encode .Void ∧
      runStmts 30 compile_vector_ref
        { r8 := a + 3, rax := 16 * i, mem := s1.mem } = .ok s2 ∧
      s2.rax = x := by
  have hset := compile_vector_set_run a L i x rsp0 M ha8 ha1 ha2 hi0 hiL hL2 hx1 hx2 hM1 hM2 hM3
  have hl1 : load64 ((a + 8 * i + 8, x) :: M) a = L := by
    rw [load64_cons_ne (by omega), hM3]
  have hl2 : load64 ((a + 8 * i + 8, x) :: M) (a + 8 * i + 8) = x := load64_cons_eq
  have href := compile_vector_ref_run a L i x
    { r8 := a + 3, rax := 16 * i, mem := (a + 8 * i + 8, x) :: M }
    ha8 ha1 ha2 hi0 hiL hL2 hx1 hx2 rfl rfl hl1 hl2
  refine ⟨_, _, hset, ?_, runStmts_mono 21 30 _ _ _ href (by simp) (by omega), ?_⟩
  · simp [Value.encode, VOID_TYPE, IMMEDIATE_SHIFT]
  · rfl

theorem c9_vector_set_then_ref_witness :
    ∃ s1 s2 : MachineState,
      runStmts 30 (compile_vector_set Compiler.new).1
        { rsp := 1000, rax := 672, mem := [(1000, 16), (1008, 11), (8, 3)] } = .ok s1 ∧
      s1.rax = Value.encode .Void ∧
      runStmts 30 compile_vector_ref
        { r8 := 11, rax := 16, mem := s1.mem } = .ok s2 ∧
      s2.rax = 672 := by
  have h := c9_vector_set_then_ref 8 3 1 672 1000 [(1000, 16), (1008, 11), (8, 3)]
    (by norm_num) (by norm_num) (by norm_num) (by norm_num) (by norm_num) (by norm_num)
    (by norm_num) (by norm_num) (by decide) (by decide) (by decide)
  simpa using h

lemma slide_run (off : Nat) : ∀ (is : List Nat) (s : MachineState),
    ∃ s' : MachineState,
      runStmts (2 * is.length) (slideStmts off is) s = .ok s' ∧
      s'.rsp = s.rsp ∧ s'.rax = s.rax ∧ s'.flags = s.flags := by
  intro is
  induction is with
  | nil => intro s; exact ⟨s, rfl, rfl, rfl, rfl⟩
  | cons i tl ih =>
    intro s
    have hfuel : 2 * (i :: tl).length = 2 * tl.length + 1 + 1 := by
      simp [List.length_cons]
      ring
    rw [hfuel]
    simp only [slideStmts, List.flatMap_cons, List.cons_append, List.nil_append]
    simp only [runStmts]
    obtain ⟨s', h1, h2, h3, h4⟩ := ih (((s.execMov R8 (.Offset .RSP (8 * i))).execMov
      (.Offset .RSP (8 * (i + off))) R8))
    refine ⟨s', ?_, ?_, ?_, ?_⟩
    · exact h1
    · rw [h2]
      simp [MachineState.execMov, MachineState.evalSrc, MachineState.writeDest,
        MachineState.writeReg, MachineState.readReg, Operand.is32, R8, RSP]
    · rw [h3]
      simp [MachineState.execMov, MachineState.evalSrc, MachineState.writeDest,
        MachineState.writeReg, MachineState.readReg, Operand.is32, R8, RSP]
    · rw [h4]
      simp [MachineState.execMov, MachineState.evalSrc, MachineState.writeDest,
        MachineState.writeReg, MachineState.readReg, Operand.is32, R8, RSP]

lemma move_args_run (n off : Nat) (hn : 0 < n) (hoff : 0 < off)
    (s : MachineState) (h1 : -(2 ^ 50) ≤ s.rsp) (h2 : s.rsp < 2 ^ 50) (h3 : off < 2 ^ 20) :
    ∃ s' : MachineState,
      runStmts (2 * n + 1) (move_args n off) s = .ok s' ∧
      s'.rsp = s.rsp + 8 * off ∧ s'.rax = s.rax := by
  have hshape : move_args n off =
      slideStmts off ((List.range n).reverse) ++ [.Add RSP (.Immediate (8 * off))] := by
    rw [move_args, if_neg (by omega)]
    rfl
  obtain ⟨s1, hrun, hrsp, hrax, _⟩ := slide_run off ((List.range n).reverse) s
  rw [List.length_reverse, List.length_range] at hrun
  refine ⟨s1.writeDest RSP (s1.evalSrc RSP + s1.evalSrc (.Immediate (8 * off))), ?_, ?_, ?_⟩
  · rw [hshape]
    exact runStmts_append_ok (2 * n) _ s s1 1 _ _ hrun rfl (by simp)
  · simp only [RSP, MachineState.writeDest, MachineState.writeReg, MachineState.evalSrc,
      MachineState.readReg]
    rw [hrsp]
    rw [wrap64_small (by omega) (by omega)]
  · simp only [RSP, MachineState.writeDest, MachineState.writeReg]
    exact hrax

lemma tail_finish_suffix_run (k : Nat) (s : MachineState) :
    ∃ (t : Int) (s' : MachineState),
      runStmts 4
        [ .Mov RAX (.Offset .RSP (8 * k)),
          .Xor RAX (.Immediate CLOSURE_TYPE.tag.val),
          .Mov RAX (.Offset .RAX 0),
          .JmpRegister .RAX ] s = .jumpedInd t s' ∧
      s'.rsp = s.rsp := by
  refine ⟨_, _, rfl, ?_⟩
  simp [MachineState.execMov, MachineState.evalSrc, MachineState.writeDest,
    MachineState.writeReg, MachineState.readReg, Operand.is32, RAX, RSP]

/-- C7: a self-recursive tail call (n_args equal to the callee's parameter
count p) that starts from the compiler's stack invariant — rsp is the value
rsp_label it had at the function's code label, minus the extra environment
slots beyond the closure pointer and parameters, minus the n_args+1 freshly
pushed words — slides the pushed words down, adjusts rsp and jumps
indirectly, and at the jump the stack pointer is exactly rsp_label again, so
repeated tail calls re-enter the label with an unchanged stack pointer. -/
theorem c7_tail_call_rsp_restored (p L n : Nat) (rsp_label : Int) (s : MachineState)
    (hn : n = p)
    (hL : 1 + p ≤ L)
    (hLb : L < 2 ^ 20)
    (hlo : -(2 ^ 40) ≤ rsp_label) (hhi : rsp_label < 2 ^ 40)
    (hrsp : s.rsp = rsp_label - 8 * ((L : Int) - 1 - p) - 8 * (n + 1)) :
    ∃ (t : Int) (s' : MachineState),
      runStmts (2 * (n + 1) + 5) (compile_function_application_tail_finish n L) s
        = .jumpedInd t s' ∧
      s'.rsp = rsp_label := by
  obtain ⟨s1, h1, h2, _⟩ := move_args_run (n + 1) L (by omega) (by omega) s
    (by omega) (by omega) (by omega)
  obtain ⟨t, s2, h3, h4⟩ := tail_finish_suffix_run n s1
  refine ⟨t, s2, ?_, ?_⟩
  · have hf : 2 * (n + 1) + 5 = (2 * (n + 1) + 1) + 4 := by ring
    rw [hf, compile_function_application_tail_finish]
    exact runStmts_append_ok _ _ s s1 4 _ _ h1 h3 (by simp)
  · rw [h4, h2, hrsp]
    omega

theorem c7_tail_call_rsp_restored_witness :
    ∃ (t : Int) (s' : MachineState),
      runStmts 9 (compile_function_application_tail_finish 1 2) { rsp := 984 }
        = .jumpedInd t s' ∧
      s'.rsp = 1000 :=
  c7_tail_call_rsp_restored 1 2 1 1000 { rsp := 984 } rfl (by norm_num) (by norm_num)
    (by norm_num) (by norm_num) (by norm_num)

set_option maxRecDepth 10000 in
/-- C1: refuted.  The compiled code of `(< 1 2)` — built by the compiler's
own `compile_expr` on the literal program — runs to completion with the
encoded `#f` in rax, although 1 < 2, so the claimed big-step semantics
(encoded `#t` exactly when the first operand is less than the second) does
not hold: `compile_less_than` compares `rax` (the second operand) against
`r8` (the first) and `cmovl` therefore tests second < first. -/
theorem c1_less_than_operands_reversed :
    finalRax (runStmts 60
      (Mono.compile_expr (.Prim2 .LessThan (.Lit (.Int 1)) (.Lit (.Int 2))) Compiler.new).1
      { rsp := 1000 }) = some (Value.encode (.Boolean false)) ∧
    Value.encode (.Boolean false) ≠ Value.encode (.Boolean true) := by decide

/-- C2: refuted.  `free_variables` returns a `HashSet`, and closure
creation (`compile_closure` → `capture_variables`) and the lambda's code
block (`compile_lambda_definition`) each iterate a FRESH `HashSet`
whose order is not fixed by the contents: for the lambda with free
variables a and b, both `[a, b]` and `[b, a]` are valid iteration orders
of the same set, and the capture statements as well as the body's
environment differ between the two orders — so no stable per-lambda order
ties the stored word order to the load/bind order. -/
theorem c2_capture_and_bind_orders_independent :
    IsHashSetIter (free_variables
      (Lambda.toExpr ⟨"0", [], .Prim2 .Add (.Variable "a") (.Variable "b")⟩)) ["a", "b"] ∧
    IsHashSetIter (free_variables
      (Lambda.toExpr ⟨"0", [], .Prim2 .Add (.Variable "a") (.Variable "b")⟩)) ["b", "a"] ∧
    capture_variables ["a", "b"] ((VariablesTable.new.with_var "a").with_var "b") 8 ≠
      capture_variables ["b", "a"] ((VariablesTable.new.with_var "a").with_var "b") 8 ∧
    compile_lambda_definition_env
        ⟨"0", [], .Prim2 .Add (.Variable "a") (.Variable "b")⟩ ["a", "b"] ≠
      compile_lambda_definition_env
        ⟨"0", [], .Prim2 .Add (.Variable "a") (.Variable "b")⟩ ["b", "a"] := by
  decide

/-- C3: refuted.  With one enclosing binding on the stack (`env` of length
1, e.g. an outer `let`), a failing literal pattern pushed NOTHING, so by
the claim its failure path must release 0 words; the emitted failure path
instead executes `add rsp, 8 * env.len()` and jumps to the next arm with
rsp moved by 8 — the enclosing `let` slot is popped, and a later arm's
body compiled against the outer environment reads a stale slot. -/
theorem c3_pattern_failure_pops_outer_env :
    jumpRsp (runStmts 10
      ((compile_literal_pattern (.Int 1) Compiler.new (VariablesTable.new.with_var "x")
        "next_1").1.statements)
      { rsp := 1000, rax := Value.encode (.Int 0) }) = some ("next_1", 1008) ∧
    (1008 : Int) ≠ 1000 := by decide

set_option maxRecDepth 10000 in
/-- C4: refuted.  `VariablesTable::position` uses `Iterator::position`,
which returns the FIRST (oldest) matching slot: on the table `[x, x]` it
yields lexical address 1 (the outer binding) instead of 0 (the most
recent push).  Consequently the compiled `(let ((x 1)) (let ((x 2)) x))`
runs to the encoded 1, the OUTER binding's value, not the innermost 2. -/
theorem c4_shadowing_resolves_to_outer_binding :
    finalRax (runStmts 60
      (Mono.compile_expr (.Let "x" (.Lit (.Int 1)) (.Let "x" (.Lit (.Int 2)) (.Variable "x")))
        Compiler.new).1
      { rsp := 1000 }) = some (Value.encode (.Int 1)) ∧
    Value.encode (.Int 1) ≠ Value.encode (.Int 2) ∧
    VariablesTable.position ⟨[some "x", some "x"]⟩ "x" = some 1 := by decide

set_option maxRecDepth 10000 in
/-- C5: refuted.  `compare_strings` compares the length but emits NO
conditional jump after that compare, so the length flags are overwritten
by the per-character compares.  Matching the two-character literal "ab"
(codepoints `[97, 98]`) against a heap string of length 3 holding "abc"
(tagged pointer 12 for the record at address 8) ends with the equal flag
set — the pattern matches — although the lengths 3 and 2 differ. -/
theorem c5_string_pattern_ignores_length_mismatch :
    finalFlags (runStmts 40 (compare_strings [97, 98] Compiler.new).1
      { rax := 12, mem := [(8, 3), (16, 97 + 98 * 2 ^ 32), (24, 99)] }) = some .eq ∧
    load64 [(8, 3), (16, 97 + 98 * 2 ^ 32), (24, 99)] 8 = 3 ∧
    ([97, 98] : List Nat).length = 2 := by decide

/-- C6: refuted.  The emitted statements are a function of `HashSet`
iteration orders that are not determined by the source program: for a
lambda with free variables c and d, both `[c, d]` and `[d, c]` enumerate
the same `free_variables` set, yet `compile_closure` emits different
statement sequences for the two orders, so two invocations of the
compiler need not produce identical assembly. -/
theorem c6_compilation_not_deterministic :
    IsHashSetIter (free_variables
      (Lambda.toExpr ⟨"1", ["x"], .Prim2 .Cons (.Variable "c") (.Variable "d")⟩)) ["c", "d"] ∧
    IsHashSetIter (free_variables
      (Lambda.toExpr ⟨"1", ["x"], .Prim2 .Cons (.Variable "c") (.Variable "d")⟩)) ["d", "c"] ∧
    compile_closure ⟨"1", ["x"], .Prim2 .Cons (.Variable "c") (.Variable "d")⟩
        ((VariablesTable.new.with_var "c").with_var "d") ["c", "d"] ≠
      compile_closure ⟨"1", ["x"], .Prim2 .Cons (.Variable "c") (.Variable "d")⟩
        ((VariablesTable.new.with_var "c").with_var "d") ["d", "c"] := by
  decide

/-- C8: refuted.  55295 (0xD7FF) is outside every claimed error condition
(non-negative, below 0x10FFFF, below the surrogate block 0xD800–0xDFFF),
yet the emitted `integer->char` code jumps to the error label on it: the
code runs `jl ok` against 55295 — strict, so equality falls through — and
then `jg ok` against 57344, so both boundary codepoints 0xD7FF and 0xE000
are rejected. -/
theorem c8_boundary_codepoint_rejected :
    jumpDest (runStmts 30 int_to_char { rax := Value.encode (.Int 55295) }) = some ERR_LABEL ∧
    ¬ ((55295 : Int) < 0 ∨ (0x10FFFF : Int) < 55295 ∨
       ((0xD800 : Int) ≤ 55295 ∧ (55295 : Int) ≤ 0xDFFF)) := by decide

/-- C10: refuted.  `assert_codepoint` uses the FIXED label name "ok"
instead of a fresh `new_label_id`, so the full compiled output of a
program with two `integer->char` occurrences defines the label "ok"
twice, and the emitted label names are not pairwise distinct. -/
theorem c10_duplicate_ok_label :
    (labelNames (Mono.compile
      (.Begin (.Prim1 .IntToChar (.Lit (.Int 97)))
              (.Prim1 .IntToChar (.Lit (.Int 98)))))).count "ok" = 2 ∧
    ¬ (labelNames (Mono.compile
      (.Begin (.Prim1 .IntToChar (.Lit (.Int 97)))
              (.Prim1 .IntToChar (.Lit (.Int 98)))))).Nodup := by decide
